import Mathlib

/-!
# Verification of the Markprompt ingestion orchestrator, website crawler,
# retrieval-augmented completion engine and client stream decoder

This file gives a shallow embedding, in Lean 4, of the core logic of the
repository:

* `src/packages/core/index.js` — the client stream decoder (`submitPrompt`);
* `src/lib/context/training.tsx` — the ingestion orchestrator
  (`generateEmbeddingForFile`, `generateEmbeddings`) and the website
  crawler loop inside `_trainSource`;
* `src/unnamed/part_000` (`lib/completions.ts`) — `storePrompt`,
  `updatePrompt`, `getMatchingSections`;
* `src/pages/api/v1/openai/completions/[project].ts` — the completions
  endpoint `handler`.

Strings handled bytewise by the JavaScript code are modelled as
`List Char` (chunk boundaries are modelled at code-point granularity);
external collaborators (fetch, OpenAI, Supabase, utility functions that are
not part of the sources, such as `createChecksum`, `stripIndent`,
`JSON.parse` or `buildSectionReferenceFromMatchResult`) are modelled as
explicit parameters of the embedded functions.  Asynchronous code is
sequentialised; the bounded-concurrency sweep of `generateEmbeddings` is
modelled in schedule order (all items are enqueued up front and none is
cancelled by a per-item failure, which the per-item `catch` swallows, so
the set of processed items does not depend on interleaving).
-/

/-! ## The stream separator (`src/packages/core/index.js`, line 14, and
`lib/constants` via `STREAM_SEPARATOR`) -/

/-- `STREAM_SEPARATOR` from `src/packages/core/index.js`. -/
def STREAM_SEPARATOR : String := "___START_RESPONSE_STREAM___"

/-- The separator as a character list, for the chunk-level decoder model. -/
def streamSep : List Char := STREAM_SEPARATOR.toList

/-! ## JavaScript `String.prototype.split` / `includes`, on `List Char`.

`submitPrompt` uses `startText.includes(STREAM_SEPARATOR)` and
`startText.split(STREAM_SEPARATOR)`.  `splitFirst` finds the leftmost
occurrence of the separator; `splitAll` iterates it exactly as JS `split`
does. -/

/-- Split a character list at the leftmost occurrence of `sep`:
returns `some (before, after)` or `none` when `sep` does not occur. -/
def splitFirst (sep : List Char) : List Char → Option (List Char × List Char)
  | [] => if sep.isPrefixOf ([] : List Char) then some ([], []) else none
  | c :: rest =>
    if sep.isPrefixOf (c :: rest) then some ([], (c :: rest).drop sep.length)
    else (splitFirst sep rest).map (fun pq => (c :: pq.1, pq.2))

/-- Fueled worker for `splitAll` (the fuel only serves termination; with
fuel `≥` the number of occurrences it computes JS `split`). -/
def splitAllAux (sep : List Char) : Nat → List Char → List (List Char)
  | 0, s => [s]
  | fuel + 1, s =>
    match splitFirst sep s with
    | none => [s]
    | some (pre, post) => pre :: splitAllAux sep fuel post

/-- JavaScript `s.split(sep)` on character lists (for non-empty `sep`). -/
def splitAll (sep s : List Char) : List (List Char) :=
  splitAllAux sep (s.length + 1) s

/-! ## The client stream decoder (`submitPrompt`,
`src/packages/core/index.js`, lines 87–118).

The decode loop state: `didHandleHeader`, the accumulated `startText`, the
parsed reference list `refs` and the list of payloads passed to
`onAnswerChunk` so far.  `JSON.parse` is an external collaborator, modelled
as a partial parse function `parse` (`none` = the parse threw, in which
case the code keeps the previous `refs`, initially `[]`). -/

structure DecState where
  didHandleHeader : Bool
  startText : List Char
  refs : List String
  answers : List (List Char)
deriving DecidableEq, Repr

/-- One iteration of the `while (!done)` loop body of `submitPrompt` for a
decoded chunk value. -/
def decodeChunk (parse : List Char → Option (List String)) (st : DecState)
    (chunk : List Char) : DecState :=
  if st.didHandleHeader then
    { st with answers := st.answers ++ [chunk] }
  else
    let s := st.startText ++ chunk
    if (splitFirst streamSep s).isSome then
      let parts := splitAll streamSep s
      let refs :=
        match parse (parts.getD 0 []) with
        | some r => r
        | none => st.refs
      { didHandleHeader := true, startText := s, refs := refs,
        answers := st.answers ++ [parts.getD 1 []] }
    else
      { st with startText := s }

/-- The decode loop of `submitPrompt` over a list of received chunks. -/
def decodeRun (parse : List Char → Option (List String))
    (chunks : List (List Char)) : DecState :=
  chunks.foldl (decodeChunk parse) ⟨false, [], [], []⟩

/-- What `submitPrompt` delivers for a successfully streamed body split
into `chunks`: the reference list passed to `onReferences` and the
concatenation of all `onAnswerChunk` payloads.  The final
`reader.read()` returns `done` with `value = undefined`, which
`TextDecoder.decode` turns into the empty string and the loop body still
processes — hence the trailing `[]` chunk. -/
def submitPromptStream (parse : List Char → Option (List String))
    (chunks : List (List Char)) : List String × List Char :=
  let st := decodeRun parse (chunks ++ [[]])
  (st.refs, st.answers.flatten)

/-! ## Lemmas about `splitFirst` and `splitAll` -/

theorem splitFirst_sound {sep : List Char} :
    ∀ {s p q : List Char}, splitFirst sep s = some (p, q) → s = p ++ sep ++ q := by
  intro s
  induction s with
  | nil =>
    intro p q h
    unfold splitFirst at h
    split at h
    · rename_i hpre
      rw [List.isPrefixOf_iff_prefix] at hpre
      rcases hpre with ⟨t, ht⟩
      cases List.append_eq_nil.mp ht |>.left
      simp_all
    · exact absurd h (by simp)
  | cons c rest ih =>
    intro p q h
    unfold splitFirst at h
    split at h
    · rename_i hpre
      rw [List.isPrefixOf_iff_prefix] at hpre
      rcases hpre with ⟨t, ht⟩
      rw [Option.some.injEq, Prod.mk.injEq] at h
      rcases h with ⟨hp, hq⟩
      subst hp
      rw [← ht, List.drop_left] at hq
      subst hq
      simpa using ht.symm
    · rcases Option.map_eq_some'.mp h with ⟨⟨p', q'⟩, hrec, heq⟩
      rw [Prod.mk.injEq] at heq
      rcases heq with ⟨hp, hq⟩
      subst hp; subst hq
      simpa using ih hrec

theorem splitFirst_isSome_of_isPrefixOf {sep s : List Char}
    (h : sep.isPrefixOf s) : (splitFirst sep s).isSome := by
  cases s with
  | nil => simp [splitFirst, h]
  | cons c rest => simp [splitFirst, h]

theorem splitFirst_occurs {sep : List Char} :
    ∀ (p q : List Char), (splitFirst sep (p ++ sep ++ q)).isSome := by
  intro p
  induction p with
  | nil =>
    intro q
    apply splitFirst_isSome_of_isPrefixOf
    rw [List.isPrefixOf_iff_prefix]
    exact ⟨q, by simp⟩
  | cons c p' ih =>
    intro q
    show (splitFirst sep (c :: (p' ++ sep ++ q))).isSome
    unfold splitFirst
    split
    · simp
    · simpa using ih q

theorem splitFirst_leftmost {sep : List Char} :
    ∀ {s p q : List Char}, splitFirst sep s = some (p, q) →
      ∀ p' q', s = p' ++ sep ++ q' → p.length ≤ p'.length := by
  intro s
  induction s with
  | nil =>
    intro p q h p' q' hdec
    unfold splitFirst at h
    split at h
    · rw [Option.some.injEq, Prod.mk.injEq] at h
      rw [← h.left]
      exact Nat.zero_le _
    · exact absurd h (by simp)
  | cons c rest ih =>
    intro p q h p' q' hdec
    unfold splitFirst at h
    split at h
    · rw [Option.some.injEq, Prod.mk.injEq] at h
      rw [← h.left]
      exact Nat.zero_le _
    · rename_i hnpre
      rcases Option.map_eq_some'.mp h with ⟨⟨p₀, q₀⟩, hrec, heq⟩
      rw [Prod.mk.injEq] at heq
      rcases heq with ⟨hp, hq⟩
      subst hp; subst hq
      cases p' with
      | nil =>
        exfalso
        apply hnpre
        rw [List.isPrefixOf_iff_prefix]
        exact ⟨q', by simpa using hdec.symm⟩
      | cons c' p'' =>
        have hc : c' = c ∧ rest = p'' ++ sep ++ q' := by
          have := hdec
          simp only [List.cons_append] at this
          exact ⟨(List.cons.inj this).left.symm, (List.cons.inj this).right⟩
        simpa using Nat.succ_le_succ (ih hrec p'' q' hc.right)

theorem splitAllAux_of_none {sep s : List Char} (h : splitFirst sep s = none) :
    ∀ fuel, splitAllAux sep fuel s = [s] := by
  intro fuel
  cases fuel with
  | zero => rfl
  | succ n => simp [splitAllAux, h]

theorem splitAllAux_ne_nil {sep s : List Char} {fuel : Nat} :
    splitAllAux sep fuel s ≠ [] := by
  cases fuel with
  | zero => simp [splitAllAux]
  | succ n =>
    unfold splitAllAux
    split <;> simp

theorem splitAll_pair {sep s p q : List Char}
    (h1 : splitFirst sep s = some (p, q)) (h2 : splitFirst sep q = none) :
    splitAll sep s = [p, q] := by
  unfold splitAll
  have : splitAllAux sep (s.length + 1) s = p :: splitAllAux sep s.length q := by
    simp [splitAllAux, h1]
  rw [this, splitAllAux_of_none h2]

theorem splitAll_pair_inv {sep s p q : List Char} (hsep : sep ≠ [])
    (h : splitAll sep s = [p, q]) :
    splitFirst sep s = some (p, q) ∧ splitFirst sep q = none := by
  unfold splitAll at h
  rcases hf : splitFirst sep s with _ | ⟨u, v⟩
  · rw [splitAllAux_of_none hf] at h
    exact absurd h (by simp)
  · have hs : s = u ++ sep ++ v := splitFirst_sound hf
    have hsep1 : 1 ≤ sep.length := by
      cases sep with
      | nil => exact absurd rfl hsep
      | cons a l => simp
    obtain ⟨m, hm⟩ : ∃ m, s.length = m + 1 :=
      ⟨s.length - 1, by rw [hs]; simp only [List.length_append]; omega⟩
    rw [hm] at h
    rw [show splitAllAux sep (m + 1 + 1) s = u :: splitAllAux sep (m + 1) v from
      by simp [splitAllAux, hf]] at h
    rcases hf2 : splitFirst sep v with _ | ⟨u2, v2⟩
    · rw [splitAllAux_of_none hf2] at h
      rw [List.cons.injEq, List.cons.injEq] at h
      rcases h with ⟨hu, hv, -⟩
      subst hu; subst hv
      exact ⟨rfl, hf2⟩
    · exfalso
      rw [show splitAllAux sep (m + 1) v = u2 :: splitAllAux sep m v2 from
        by simp [splitAllAux, hf2]] at h
      rw [List.cons.injEq, List.cons.injEq] at h
      exact splitAllAux_ne_nil h.right.right

/-! ## The decode loop: split invariance -/

theorem foldl_decodeChunk_of_header {parse : List Char → Option (List String)} :
    ∀ (chunks : List (List Char)) (st : DecState), st.didHandleHeader = true →
      chunks.foldl (decodeChunk parse) st =
        { st with answers := st.answers ++ chunks } := by
  intro chunks
  induction chunks with
  | nil => intro st h; simp
  | cons c cs ih =>
    intro st h
    have hstep : decodeChunk parse st c = { st with answers := st.answers ++ [c] } := by
      unfold decodeChunk
      rw [h]
      simp
    rw [List.foldl_cons, hstep, ih _ (by simpa using h)]
    simp

/-- The heart of the split-invariance argument: starting from a pre-header
state whose accumulated `startText` is a separator-free prefix `P` of the
full body `S = H ++ sep ++ A` (where the separator occurs exactly once,
witnessed by the two `splitFirst` facts), the decode loop ends with
references `parse H` (falling back to the initial `refs`) and total answer
text `A`. -/
theorem foldl_decodeChunk_main {parse : List Char → Option (List String)}
    {H A : List Char}
    (hS : splitFirst streamSep (H ++ streamSep ++ A) = some (H, A))
    (hA : splitFirst streamSep A = none) :
    ∀ (chunks : List (List Char)) (P : List Char) (refs0 : List String)
      (ans0 : List (List Char)),
      P ++ chunks.flatten = H ++ streamSep ++ A →
      splitFirst streamSep P = none →
      (chunks.foldl (decodeChunk parse) ⟨false, P, refs0, ans0⟩).refs =
          (match parse H with | some r => r | none => refs0) ∧
      (chunks.foldl (decodeChunk parse) ⟨false, P, refs0, ans0⟩).answers.flatten =
          ans0.flatten ++ A := by
  intro chunks
  induction chunks with
  | nil =>
    intro P refs0 ans0 hflat hP
    exfalso
    simp only [List.flatten_nil, List.append_nil] at hflat
    have hocc := @splitFirst_occurs streamSep H A
    rw [← hflat, hP] at hocc
    exact absurd hocc (by simp)
  | cons c cs ih =>
    intro P refs0 ans0 hflat hP
    simp only [List.flatten_cons, ← List.append_assoc] at hflat
    rcases hsome : splitFirst streamSep (P ++ c) with _ | ⟨p, q⟩
    · -- separator not yet complete: keep accumulating
      have hstep : decodeChunk parse ⟨false, P, refs0, ans0⟩ c =
          ⟨false, P ++ c, refs0, ans0⟩ := by
        unfold decodeChunk
        simp [hsome]
      rw [List.foldl_cons, hstep]
      exact ih (P ++ c) refs0 ans0 (by rw [← hflat]) hsome
    · -- the separator is completed inside this chunk
      have hs : P ++ c = p ++ streamSep ++ q := splitFirst_sound hsome
      -- leftmostness in the full body: `H.length ≤ p.length`
      have hHp : H.length ≤ p.length := by
        apply splitFirst_leftmost hS p (q ++ cs.flatten)
        rw [← hflat, hs]
        simp [List.append_assoc]
      -- `P ++ c` is a prefix of the full body extending past the separator
      obtain ⟨t, ht1, ht2⟩ :
          ∃ t, P ++ c = (H ++ streamSep) ++ t ∧ A = t ++ cs.flatten := by
        have hlen : (H ++ streamSep).length ≤ (P ++ c).length := by
          rw [hs]
          simp only [List.length_append]
          omega
        rcases List.append_eq_append_iff.mp
            (show (P ++ c) ++ cs.flatten = (H ++ streamSep) ++ A from hflat) with
          ⟨a', ha1, ha2⟩ | ⟨c', hc1, hc2⟩
        · -- `H ++ sep = (P ++ c) ++ a'` forces `a' = []` by the length bound
          have ha0 : a' = [] := by
            have := congrArg List.length ha1
            simp only [List.length_append] at this hlen
            have : a'.length = 0 := by omega
            exact List.length_eq_zero.mp this
          subst ha0
          exact ⟨[], by simpa using ha1.symm, by simpa using ha2.symm⟩
        · exact ⟨c', hc1, hc2⟩
      -- leftmostness inside `P ++ c` gives `p = H`, `q = t`
      have hpH : p.length ≤ H.length :=
        splitFirst_leftmost hsome H t (by rw [ht1])
      have hkey : p ++ (streamSep ++ q) = H ++ (streamSep ++ t) := by
        have := hs.symm.trans ht1
        simpa [List.append_assoc] using this
      obtain ⟨hp, hq'⟩ := List.append_inj hkey (by omega)
      have hq : q = t := List.append_inj_right hq' rfl
      subst hp
      subst hq
      -- no second occurrence of the separator after the header
      have hqnone : splitFirst streamSep q = none := by
        rcases hq2 : splitFirst streamSep q with _ | ⟨u, v⟩
        · rfl
        · exfalso
          have hqv : q = u ++ streamSep ++ v := splitFirst_sound hq2
          have hAu : A = u ++ streamSep ++ (v ++ cs.flatten) := by
            rw [ht2, hqv]
            simp [List.append_assoc]
          have hocc := @splitFirst_occurs streamSep u (v ++ cs.flatten)
          rw [← hAu, hA] at hocc
          exact absurd hocc (by simp)
      have hparts : splitAll streamSep (P ++ c) = [p, q] := splitAll_pair hsome hqnone
      have hstep : decodeChunk parse ⟨false, P, refs0, ans0⟩ c =
          ⟨true, P ++ c, (match parse p with | some r => r | none => refs0),
            ans0 ++ [q]⟩ := by
        unfold decodeChunk
        simp only [hsome, hparts]
        simp
      rw [List.foldl_cons, hstep, foldl_decodeChunk_of_header cs _ (by simp)]
      constructor
      · rfl
      · simp [ht2, List.append_assoc]

/-- Claim C3: for every response byte sequence consisting of a JSON
reference-path array `H`, the separator literal, and answer text `A`
(i.e. the separator occurs exactly once, so that JS `split` yields exactly
`[H, A]`), and for every way of splitting that sequence into chunks, the
client decoder `submitPrompt` delivers the same reference list to the
references callback and the same concatenated answer text to the
answer-chunk callbacks as it does for the unsplit sequence. -/
theorem submitPrompt_split_invariance
    (parse : List Char → Option (List String)) (H A : List Char)
    (chunks : List (List Char))
    (hone : splitAll streamSep (H ++ streamSep ++ A) = [H, A])
    (hchunks : chunks.flatten = H ++ streamSep ++ A) :
    submitPromptStream parse chunks =
      submitPromptStream parse [H ++ streamSep ++ A] := by
  have hsep : streamSep ≠ [] := by decide
  obtain ⟨hS, hA⟩ := splitAll_pair_inv hsep hone
  have hnil : splitFirst streamSep ([] : List Char) = none := by decide
  have h1 := @foldl_decodeChunk_main parse _ _ hS hA (chunks ++ [[]]) [] [] []
    (by simp [hchunks]) hnil
  have h2 := @foldl_decodeChunk_main parse _ _ hS hA
    ([H ++ streamSep ++ A] ++ [[]]) [] [] [] (by simp) hnil
  unfold submitPromptStream decodeRun
  rw [Prod.mk.injEq]
  constructor
  · rw [h1.left, h2.left]
  · rw [h1.right, h2.right]

/-- Concrete instance of the C3 invariance: the spec scenario
`"[\"docs/a.md\"]" + SEPARATOR + "Hello" + " world"`. -/
theorem submitPrompt_split_invariance_witness :
    (splitAll streamSep
        ("[\"docs/a.md\"]".toList ++ streamSep ++ "Hello world".toList) =
      ["[\"docs/a.md\"]".toList, "Hello world".toList]) ∧
    ([("[\"docs/a.md\"]".toList ++ streamSep ++ "Hello".toList),
        " world".toList].flatten =
      "[\"docs/a.md\"]".toList ++ streamSep ++ "Hello world".toList) ∧
    submitPromptStream (fun _ => none)
        [("[\"docs/a.md\"]".toList ++ streamSep ++ "Hello".toList),
          " world".toList] =
      submitPromptStream (fun _ => none)
        ["[\"docs/a.md\"]".toList ++ streamSep ++ "Hello world".toList] :=
  ⟨by decide, by decide,
    submitPrompt_split_invariance (fun _ => none) _ _ _ (by decide) (by decide)⟩

/-! ## `submitPrompt` failure behaviour (`src/packages/core/index.js`,
lines 80–85 and 119–122) -/

/-- `I_DONT_KNOW_MESSAGE` from `src/packages/core/index.js`, the default
`iDontKnowMessage` option. -/
def I_DONT_KNOW_MESSAGE : String := "Sorry, I am not sure how to answer that."

/-- A callback invocation made by `submitPrompt`. -/
inductive ClientEvent where
  | answerChunk (payload : List Char)
  | references (refs : List String)
  | errored (message : String)
deriving DecidableEq, Repr

/-- The possible outcomes of the underlying `fetch` of `submitPrompt`. -/
inductive SubmitOutcome where
  | fetchThrown (message : String)
  | badResponse (bodyText : String)
  | streamed (chunks : List (List Char))
  | streamThrown (delivered : List (List Char)) (message : String)
deriving DecidableEq, Repr

/-- The sequence of callback invocations `submitPrompt` performs, given the
transport outcome.  `fetchThrown` is the `catch` branch entered when the
`fetch` itself rejects; `badResponse` is the `!res.ok || !res.body` branch
(with the awaited body text); `streamed` is a complete stream;
`streamThrown` is a mid-stream read failure (also landing in `catch`). -/
def submitPromptEvents (parse : List Char → Option (List String))
    (iDontKnowMessage : List Char) (outcome : SubmitOutcome) :
    List ClientEvent :=
  match outcome with
  | .fetchThrown e => [.answerChunk iDontKnowMessage, .errored e]
  | .badResponse body => [.answerChunk iDontKnowMessage, .errored body]
  | .streamed chunks =>
    let st := decodeRun parse (chunks ++ [[]])
    (st.answers.map ClientEvent.answerChunk) ++ [.references st.refs]
  | .streamThrown delivered e =>
    let st := decodeRun parse delivered
    (st.answers.map ClientEvent.answerChunk) ++
      [.answerChunk iDontKnowMessage, .errored e]

/-- Claim C9: whenever the underlying request of `submitPrompt` fails
outright (non-ok response, missing body, or a thrown transport error before
any read), the decoder invokes the answer-chunk callback exactly once, with
the configured fallback message, and then invokes the error callback. -/
theorem submitPrompt_outright_failure_fallback
    (parse : List Char → Option (List String)) (idk : List Char)
    (outcome : SubmitOutcome) (e : String)
    (h : outcome = .fetchThrown e ∨ outcome = .badResponse e) :
    submitPromptEvents parse idk outcome =
      [.answerChunk idk, .errored e] := by
  rcases h with h | h <;> subst h <;> rfl

/-- Concrete instance of C9: a 500 response with the default fallback. -/
theorem submitPrompt_outright_failure_fallback_witness :
    ((SubmitOutcome.badResponse "Internal Server Error" =
        SubmitOutcome.fetchThrown "Internal Server Error") ∨
      (SubmitOutcome.badResponse "Internal Server Error" =
        SubmitOutcome.badResponse "Internal Server Error")) ∧
    submitPromptEvents (fun _ => none) I_DONT_KNOW_MESSAGE.toList
        (SubmitOutcome.badResponse "Internal Server Error") =
      [.answerChunk I_DONT_KNOW_MESSAGE.toList,
        .errored "Internal Server Error"] :=
  ⟨Or.inr rfl,
    submitPrompt_outright_failure_fallback (fun _ => none)
      I_DONT_KNOW_MESSAGE.toList _ "Internal Server Error" (Or.inr rfl)⟩

/-! ## The ingestion orchestrator (`src/lib/context/training.tsx`)

`generateEmbeddingForFile` (lines 148–282) decides, per item, whether to
skip or to hand the item to the indexing collaborator `processFile`, and
how to react to its failure; `generateEmbeddings` (lines 284–350) sweeps
items `0..numFiles-1` under `pLimit(5)`, wrapping every item in a
`try/catch` that only logs (lines 321–340).  Because all items are enqueued
up front, no failure cancels queued items and the per-item wrapper catches
every exception, the set of attempted items and each item's decision do not
depend on the interleaving; the sweep is therefore modelled in index
order.  `createChecksum` and `shouldIncludeFileWithPath` live in
`lib/utils` (outside the sources) and are modelled as, respectively, an
abstract checksum function and a precomputed `included` flag. -/

/-- The `TrainingState` tagged union of `training.tsx` (lines 67–84). -/
inductive TrainingState where
  | idle
  | fetching_data
  | loading (progress : Nat) (total : Nat) (filename : String)
  | cancel_requested
  | complete (errors : List String)
deriving DecidableEq, Repr

/-- The fields of `FileData` the orchestrator reads. -/
structure FileData where
  name : String
  content : String
deriving DecidableEq, Repr

/-- Per-item data: the item's path (`getFilePath i`), whether
`shouldIncludeFileWithPath` accepts it, and the result of
`getFileData i` (`none` models `undefined`). -/
structure ItemEnv where
  path : String
  included : Bool
  fileData : Option FileData
deriving DecidableEq, Repr

/-- The outcome of the external `processFile` call for an item:
success, a 403 error named `API_ERROR_ID_CONTENT_TOKEN_QUOTA_EXCEEDED`,
or any other error (carrying its serialized form). -/
inductive ProcessOutcome where
  | ok
  | quotaExceeded
  | failed (message : String)
deriving DecidableEq, Repr

/-- How `generateEmbeddingForFile` ends for one item. -/
inductive ItemResult where
  | stopped
  | skippedExcluded
  | skippedNoData
  | skippedUnchanged
  | processedOk
  | processedFailed (message : String)
  | quotaAborted
deriving DecidableEq, Repr

/-- `checksums?.find((c) => c.path === path)?.checksum`
(`training.tsx`, line 195). -/
def lookupChecksum (checksums : List (String × String)) (path : String) :
    Option String :=
  (checksums.find? (fun c => c.1 == path)).map (fun c => c.2)

/-- `generateEmbeddingForFile` (`training.tsx`, lines 148–282) for one
item: check the stop flag, the include/exclude filter, resolve the file
data, compare checksums, and call `processFile`, catching its failure
(quota-exceeded rethrows after resetting the state to `idle`; any other
error is appended to the error list and processing continues). -/
def generateEmbeddingForFile (stopFlag : Bool) (forceRetrain : Bool)
    (chk : String → String) (checksums : List (String × String))
    (item : ItemEnv) (outcome : ProcessOutcome) : ItemResult :=
  if stopFlag then .stopped
  else if !item.included then .skippedExcluded
  else
    match item.fileData with
    | none => .skippedNoData
    | some fd =>
      let currentChecksum := chk fd.content
      if lookupChecksum checksums item.path == some currentChecksum
          && !forceRetrain then
        .skippedUnchanged
      else
        match outcome with
        | .ok => .processedOk
        | .quotaExceeded => .quotaAborted
        | .failed m => .processedFailed m

/-- Whether the item's run invoked the indexing collaborator
(`processFile`). -/
def invokesProcessFile : ItemResult → Bool
  | .processedOk => true
  | .processedFailed _ => true
  | .quotaAborted => true
  | _ => false

/-- A full `generateEmbeddings` run environment: the item count,
`forceRetrain`, the checksum function, the stored checksum table for the
source, the per-item resolution data and the per-item `processFile`
outcome. -/
structure RunEnv where
  numFiles : Nat
  forceRetrain : Bool
  chk : String → String
  checksums : List (String × String)
  items : Nat → ItemEnv
  outcomes : Nat → ProcessOutcome

/-- The decision taken for item `i` of a run.  `generateEmbeddings` resets
`stopFlag` to `false` at the start (line 306) and nothing in the run sets
it, so each item runs with `stopFlag = false`. -/
def runItemResult (env : RunEnv) (i : Nat) : ItemResult :=
  generateEmbeddingForFile false env.forceRetrain env.chk env.checksums
    (env.items i) (env.outcomes i)

/-- The error-list entries an item contributes (`setErrors`, lines
272–275); the quota-exceeded branch contributes nothing. -/
def itemErrors (env : RunEnv) (i : Nat) : List String :=
  match runItemResult env i with
  | .processedFailed m =>
    ["Error processing file " ++ (env.items i).path ++ ": " ++ m]
  | _ => []

/-- The `onFileProcessed` callbacks an item fires (lines 261 and 279):
exactly the items for which `processFile` was invoked, including the
quota-exceeded item itself. -/
def itemCallbacks (env : RunEnv) (i : Nat) : List String :=
  if invokesProcessFile (runItemResult env i) then [(env.items i).path]
  else []

/-- The `setState` calls an item performs: `loading` on every item passing
the include/exclude filter (lines 188–193), plus `idle` in the
quota-exceeded branch (line 262). -/
def itemStates (env : RunEnv) (i : Nat) : List TrainingState :=
  (if ¬ (runItemResult env i = .stopped ∨
        runItemResult env i = .skippedExcluded) then
    [TrainingState.loading (i + 1) env.numFiles
      (((env.items i).path.splitOn "/").getLastD "")]
  else []) ++
  (if runItemResult env i = .quotaAborted then [TrainingState.idle] else [])

/-- The observable result of a `generateEmbeddings` run. -/
structure RunResult where
  results : List ItemResult
  errors : List String
  callbacks : List String
  stateTrace : List TrainingState
deriving DecidableEq, Repr

/-- `generateEmbeddings` (`training.tsx`, lines 284–350): every index in
`0..numFiles-1` is mapped to a `pLimit` task wrapping
`generateEmbeddingForFile` in a `try/catch` that only logs, so the
rethrown quota error of one item never prevents the remaining items from
being attempted; the run always ends with `setState({state: 'idle'})`. -/
def generateEmbeddings (env : RunEnv) : RunResult :=
  { results := (List.range env.numFiles).map (runItemResult env)
    errors := (List.range env.numFiles).flatMap (itemErrors env)
    callbacks := (List.range env.numFiles).flatMap (itemCallbacks env)
    stateTrace := (List.range env.numFiles).flatMap (itemStates env) ++
      [TrainingState.idle] }

theorem run_results_getD (env : RunEnv) (i : Nat) (h : i < env.numFiles) :
    (generateEmbeddings env).results.getD i .stopped = runItemResult env i := by
  unfold generateEmbeddings
  simp [List.getD_eq_getElem?_getD, List.getElem?_map, List.getElem?_range h]

/-- Claim C2: for every item of a run that passes the include/exclude
filter and whose resolve yields content, `processFile` is invoked iff
`forceRetrain` is true or the computed checksum differs from the stored
one; in particular it is never invoked on a checksum match with
`forceRetrain = false`, and always invoked when `forceRetrain = true`. -/
theorem processFile_invocation_iff (env : RunEnv) (i : Nat) (fd : FileData)
    (hi : i < env.numFiles)
    (hinc : (env.items i).included = true)
    (hfd : (env.items i).fileData = some fd) :
    invokesProcessFile ((generateEmbeddings env).results.getD i .stopped) = true ↔
      (env.forceRetrain = true ∨
        lookupChecksum env.checksums (env.items i).path ≠
          some (env.chk fd.content)) := by
  rw [run_results_getD env i hi]
  unfold runItemResult generateEmbeddingForFile
  rw [hinc, hfd]
  by_cases hc : (lookupChecksum env.checksums (env.items i).path ==
      some (env.chk fd.content)) && !env.forceRetrain
  · rw [Bool.and_eq_true, beq_iff_eq, Bool.not_eq_true'] at hc
    simp [hc.left, hc.right, invokesProcessFile]
  · rw [Bool.and_eq_true, beq_iff_eq, Bool.not_eq_true'] at hc
    rw [Decidable.not_and_iff_or_not] at hc
    have hrhs : env.forceRetrain = true ∨
        lookupChecksum env.checksums (env.items i).path ≠
          some (env.chk fd.content) := by
      rcases hc with hc | hc
      · exact Or.inr hc
      · exact Or.inl (by revert hc; cases env.forceRetrain <;> simp)
    have hcond : ((lookupChecksum env.checksums (env.items i).path ==
        some (env.chk fd.content)) && !env.forceRetrain) = false := by
      rcases hc with hc | hc
      · simp [beq_eq_false_iff_ne, hc]
      · simp [hc]
    simp only [Bool.false_eq_true, if_false, hcond, if_neg]
    cases env.outcomes i <;> simp [invokesProcessFile, hrhs]

/-- Concrete instance of C2: one item, matching stored checksum,
`forceRetrain = true` ⇒ `processFile` is invoked. -/
theorem processFile_invocation_iff_witness :
    (0 < 1 ∧
      (ItemEnv.mk "a.md" true (some ⟨"a.md", "C"⟩)).included = true ∧
      (ItemEnv.mk "a.md" true (some ⟨"a.md", "C"⟩)).fileData =
        some ⟨"a.md", "C"⟩) ∧
    (invokesProcessFile ((generateEmbeddings
        { numFiles := 1, forceRetrain := true, chk := fun s => s,
          checksums := [("a.md", "C")],
          items := fun _ => ⟨"a.md", true, some ⟨"a.md", "C"⟩⟩,
          outcomes := fun _ => .ok }).results.getD 0 .stopped) = true ↔
      (true = true ∨
        lookupChecksum [("a.md", "C")] "a.md" ≠ some "C")) :=
  ⟨⟨by decide, rfl, rfl⟩,
    processFile_invocation_iff
      { numFiles := 1, forceRetrain := true, chk := fun s => s,
        checksums := [("a.md", "C")],
        items := fun _ => ⟨"a.md", true, some ⟨"a.md", "C"⟩⟩,
        outcomes := fun _ => .ok } 0 ⟨"a.md", "C"⟩ (by decide) rfl rfl⟩

/-- The failing input for claim C1: a run of two items, `forceRetrain`
set, where `processFile` fails item 0 with the quota-exceeded error and
succeeds on item 1. -/
def quotaRunEnv : RunEnv :=
  { numFiles := 2
    forceRetrain := true
    chk := fun s => s
    checksums := []
    items := fun i =>
      if i = 0 then ⟨"docs/a.md", true, some ⟨"a.md", "A"⟩⟩
      else ⟨"docs/b.md", true, some ⟨"b.md", "B"⟩⟩
    outcomes := fun i => if i = 0 then .quotaExceeded else .ok }

/-- Claim C1 (evaluation of the code at the failing input): although
`generateEmbeddingForFile` rethrows the quota error "in order to stop the
batch processing" (its own comment, `training.tsx` lines 227–228), the
per-item `try/catch` in `generateEmbeddings` (lines 321–340) swallows that
rethrow and every queued item still runs: item 1, scheduled after the
quota failure of item 0, is still handed to `processFile`.  The other two
parts of the claim do hold: the quota error is not appended to the error
list, and the run's state ends at `idle`. -/
theorem quota_error_does_not_abort_run :
    (generateEmbeddings quotaRunEnv).results =
      [ItemResult.quotaAborted, ItemResult.processedOk] ∧
    invokesProcessFile
      ((generateEmbeddings quotaRunEnv).results.getD 1 .stopped) = true ∧
    (generateEmbeddings quotaRunEnv).errors = [] ∧
    (generateEmbeddings quotaRunEnv).stateTrace.getLast? =
      some TrainingState.idle := by
  decide

/-! ## The website crawler (`src/lib/context/training.tsx`, `_trainSource`,
website case, lines 493–527)

The breadth-first discovery loop keeps a list `processedLinks` and a
frontier `linksToProcess`; each round fetches every frontier URL, extracts
links from the fetched HTML (`uniq` on the *raw* hrefs, then same-origin
filtering, then normalization), appends the frontier to `processedLinks`
and keeps only the discovered links not yet processed.  `fetchPageContent`,
`extractLinksFromHtml`, `isHrefFromBaseUrl` and the normalization
`removeTrailingSlashQueryParamsAndHash ∘ completeHrefWithBaseUrl` are
external collaborators, modelled as functions of the environment
(`normalize` returns `none` when the completion yields nothing, matching
the `.filter(isPresent)`). -/

/-- Lodash `uniq`: stable de-duplication keeping first occurrences. -/
def uniqAux (seen : List String) : List String → List String
  | [] => []
  | x :: xs =>
    if x ∈ seen then uniqAux seen xs else x :: uniqAux (x :: seen) xs

/-- Lodash `uniq` as used on the extracted raw hrefs (line 508). -/
def uniq (xs : List String) : List String := uniqAux [] xs

/-- The crawler's collaborators: resolve-time content fetch (and
include/exclude filtering) per URL, link extraction from HTML, the
same-origin test against the base URL, href normalization, and the
normalized root URL. -/
structure CrawlerEnv where
  fetchContent : String → Option String
  extract : String → List String
  sameOrigin : String → Bool
  normalize : String → Option String
  root : String

/-- One round of discovery (lines 502–519): the content of every frontier
URL that resolves, its links, `uniq` before same-origin filtering and
normalization. -/
def discoverRound (env : CrawlerEnv) (frontier : List String) : List String :=
  ((uniq ((frontier.filterMap env.fetchContent).flatMap env.extract)).filter
      env.sameOrigin).filterMap env.normalize

/-- One iteration of the `while (linksToProcess.length > 0)` loop (lines
500–527) on the state `(processedLinks, linksToProcess)`. -/
def crawlStep (env : CrawlerEnv) :
    List String × List String → List String × List String
  | (processed, frontier) =>
    let processedNext := processed ++ frontier
    (processedNext,
      (discoverRound env frontier).filter (fun l => !processedNext.contains l))

/-- The crawl state after `n` rounds, starting from
`processedLinks = []`, `linksToProcess = [root]` (lines 495–498). -/
def crawlState (env : CrawlerEnv) : Nat → List String × List String
  | 0 => ([], [env.root])
  | n + 1 => crawlStep env (crawlState env n)

/-- The URLs fetched during the first `n` rounds: every frontier entry is
resolved (`getFileData` calls `fetchPageContent` before any checksum
comparison), so each occurrence is one fetch attempt. -/
def crawlFetches (env : CrawlerEnv) (n : Nat) : List String :=
  (List.range n).flatMap (fun i => (crawlState env i).2)

/-- A concrete link graph on which two distinct raw hrefs (`/a` and `/a/`)
normalize to the same URL: `uniq` runs on the raw hrefs *before*
normalization (lines 508–519), so both survive into the next frontier. -/
def dupLinkEnv : CrawlerEnv :=
  { fetchContent := fun u => if u = "https://e.com" then some "page" else none
    extract := fun h => if h = "page" then ["/a", "/a/"] else []
    sameOrigin := fun _ => true
    normalize := fun h =>
      if h = "/a" ∨ h = "/a/" then some "https://e.com/a" else none
    root := "https://e.com" }

/-- Counterexample to claim C4 as stated: on `dupLinkEnv` the normalized
URL `https://e.com/a` appears twice in the second round's frontier and is
therefore fetched twice, because de-duplication happens on raw hrefs
before normalization.  (The run still terminates: round 3's frontier is
empty.) -/
theorem crawler_fetches_url_twice :
    (crawlFetches dupLinkEnv 2).count "https://e.com/a" = 2 ∧
    (crawlState dupLinkEnv 2).2 = [] := by
  decide

theorem crawl_processed_mono (env : CrawlerEnv) :
    ∀ {n m : Nat}, n ≤ m → ∀ {u : String},
      u ∈ (crawlState env n).1 → u ∈ (crawlState env m).1 := by
  intro n m hnm
  induction hnm with
  | refl => exact fun h => h
  | step _ ih =>
    intro u hu
    rename_i m' _
    show u ∈ (crawlState env (m' + 1)).1
    simp only [crawlState, crawlStep]
    exact List.mem_append_left _ (ih hu)

theorem crawl_frontier_subset_next (env : CrawlerEnv) (n : Nat) :
    ∀ {u : String}, u ∈ (crawlState env n).2 → u ∈ (crawlState env (n + 1)).1 := by
  intro u hu
  simp only [crawlState, crawlStep]
  exact List.mem_append_right _ hu

theorem crawl_frontier_disjoint (env : CrawlerEnv) (n : Nat) :
    ∀ {u : String}, u ∈ (crawlState env (n + 1)).2 →
      u ∉ (crawlState env (n + 1)).1 := by
  intro u hu
  simp only [crawlState, crawlStep] at hu ⊢
  rcases List.mem_filter.mp hu with ⟨-, hcon⟩
  simpa [List.contains] using hcon

theorem crawl_frontier_not_processed (env : CrawlerEnv) (n : Nat) :
    ∀ {u : String}, u ∈ (crawlState env n).2 → u ∉ (crawlState env n).1 := by
  cases n with
  | zero => intro u _ hu; simp [crawlState] at hu
  | succ k => exact fun hu => crawl_frontier_disjoint env k hu

theorem crawl_frontier_mem_univ (env : CrawlerEnv) {U : Finset String}
    (hroot : env.root ∈ U)
    (hnorm : ∀ href u, env.normalize href = some u → u ∈ U) :
    ∀ (n : Nat) {u : String}, u ∈ (crawlState env n).2 → u ∈ U := by
  intro n
  cases n with
  | zero =>
    intro u hu
    simp only [crawlState, List.mem_singleton] at hu
    exact hu ▸ hroot
  | succ k =>
    intro u hu
    simp only [crawlState, crawlStep] at hu
    rcases List.mem_filter.mp hu with ⟨hdisc, -⟩
    unfold discoverRound at hdisc
    rcases List.mem_filterMap.mp hdisc with ⟨href, -, hhref⟩
    exact hnorm href u hhref

theorem crawl_measure_decreases (env : CrawlerEnv) {U : Finset String}
    (hroot : env.root ∈ U)
    (hnorm : ∀ href u, env.normalize href = some u → u ∈ U)
    (n : Nat) (hne : (crawlState env n).2 ≠ []) :
    (U.filter (fun u => u ∉ (crawlState env (n + 1)).1)).card <
      (U.filter (fun u => u ∉ (crawlState env n).1)).card := by
  rcases List.exists_mem_of_ne_nil _ hne with ⟨x, hx⟩
  apply Finset.card_lt_card
  rw [Finset.ssubset_iff_of_subset]
  · exact ⟨x, Finset.mem_filter.mpr
      ⟨crawl_frontier_mem_univ env hroot hnorm n hx,
        crawl_frontier_not_processed env n hx⟩,
      fun hmem => (Finset.mem_filter.mp hmem).right
        (crawl_frontier_subset_next env n hx)⟩
  · intro u hu
    rcases Finset.mem_filter.mp hu with ⟨huU, hup⟩
    exact Finset.mem_filter.mpr
      ⟨huU, fun hmem => hup (crawl_processed_mono env (Nat.le_succ n) hmem)⟩

theorem crawl_descent (env : CrawlerEnv) {U : Finset String}
    (hroot : env.root ∈ U)
    (hnorm : ∀ href u, env.normalize href = some u → u ∈ U) :
    ∀ (k : Nat), (∀ i, i < k → (crawlState env i).2 ≠ []) →
      (U.filter (fun u => u ∉ (crawlState env k).1)).card + k ≤ U.card := by
  intro k
  induction k with
  | zero =>
    intro _
    simpa using Finset.card_filter_le U _
  | succ m ih =>
    intro h
    have h1 := ih (fun i hi => h i (Nat.lt_succ_of_lt hi))
    have h2 := crawl_measure_decreases env hroot hnorm m (h m (Nat.lt_succ_self m))
    omega

/-- Claim C4, amended: on every finite link graph (all normalized URLs
drawn from a finite universe `U`) the breadth-first discovery loop of the
website crawler terminates — the frontier is empty after at most `U.card`
rounds — and no normalized URL appears in the frontier of two different
rounds (so no URL is fetched in more than one round).  The original
claim's stronger "no URL fetched twice at all" fails only within a single
round, when two distinct raw hrefs normalize to the same URL
(`crawler_fetches_url_twice`). -/
theorem crawler_terminates_and_no_refetch_across_rounds
    (env : CrawlerEnv) (U : Finset String)
    (hroot : env.root ∈ U)
    (hnorm : ∀ href u, env.normalize href = some u → u ∈ U) :
    (∃ n, n ≤ U.card ∧ (crawlState env n).2 = []) ∧
    (∀ i j u, i < j → u ∈ (crawlState env i).2 →
      u ∉ (crawlState env j).2) := by
  constructor
  · by_contra hcon
    push_neg at hcon
    have hall : ∀ i, i < U.card + 1 → (crawlState env i).2 ≠ [] :=
      fun i hi => hcon i (by omega)
    have := crawl_descent env hroot hnorm (U.card + 1) hall
    omega
  · intro i j u hij hui huj
    have h1 : u ∈ (crawlState env (i + 1)).1 :=
      crawl_frontier_subset_next env i hui
    have h2 : u ∈ (crawlState env j).1 :=
      crawl_processed_mono env (by omega) h1
    rcases Nat.exists_eq_add_of_lt hij with ⟨k, hk⟩
    subst hk
    exact crawl_frontier_disjoint env (i + k) (by
      rw [show i + k + 1 = i + 1 + k from by omega] at huj ⊢
      exact huj) h2

/-- Concrete instance of the amended C4: a website whose root links only
to itself converges with an empty frontier after one round and never
repeats a URL across rounds. -/
theorem crawler_terminates_witness :
    (("https://e.com" : String) ∈ ({"https://e.com"} : Finset String) ∧
      (∀ href u,
        (fun (_ : String) => (none : Option String)) href = some u →
          u ∈ ({"https://e.com"} : Finset String))) ∧
    ((∃ n, n ≤ ({"https://e.com"} : Finset String).card ∧
      (crawlState ⟨fun _ => some "page", fun _ => ["https://e.com"],
        fun _ => true, fun _ => none, "https://e.com"⟩ n).2 = []) ∧
    (∀ i j u, i < j →
      u ∈ (crawlState ⟨fun _ => some "page", fun _ => ["https://e.com"],
        fun _ => true, fun _ => none, "https://e.com"⟩ i).2 →
      u ∉ (crawlState ⟨fun _ => some "page", fun _ => ["https://e.com"],
        fun _ => true, fun _ => none, "https://e.com"⟩ j).2)) :=
  ⟨⟨by decide, fun href u h => by cases h⟩,
    crawler_terminates_and_no_refetch_across_rounds
      ⟨fun _ => some "page", fun _ => ["https://e.com"],
        fun _ => true, fun _ => none, "https://e.com"⟩
      {"https://e.com"} (by decide) (fun href u h => by cases h)⟩

/-! ## The completion engine: `getMatchingSections`
(`src/unnamed/part_000`, `lib/completions.ts`, lines 77–182)

The moderation, embedding, token-accounting and vector-index collaborators
are modelled by their outcomes in `MatchEnv`; the calls the function makes
are recorded in an `EngineCall` trace carrying the inputs that matter (the
query text submitted to moderation and embedding). -/

/-- `ApiError` as thrown by the completion engine. -/
structure ApiError where
  code : Nat
  message : String
deriving DecidableEq, Repr

/-- The reasons recorded on a query record
(`PromptNoResponseReason`, `lib/completions.ts` line 21). -/
inductive Reason where
  | no_sections
  | idk
  | api_error
deriving DecidableEq, Repr

/-- One row of the `match_file_sections` RPC result, restricted to the
fields the engine reads. -/
structure DbFileSection where
  path : String
  content : String
  tokenCount : Nat
deriving DecidableEq, Repr

/-- A call to an external collaborator made by the engine. -/
inductive EngineCall where
  | moderationCall (query : List Char)
  | embeddingCall (query : List Char)
  | recordTokenCall (tokens : Nat)
  | matchSectionsCall
deriving DecidableEq, Repr

/-- The result object of `createEmbedding` (after the `backOff` retries,
which are collapsed into a single outcome): an optional error field, the
embedding of `data[0]` and the usage token count. -/
structure EmbApiResult where
  errorMsg : Option String
  embedding : Option (List Int)
  totalTokens : Nat
deriving DecidableEq, Repr

/-- Collaborator outcomes for one `getMatchingSections` call:
moderation flagged?, the embedding call outcome (`Except.error` models a
rejection of the retried promise), the caller-supplied OpenAI key, and the
`match_file_sections` RPC outcome (`.ok none` models a null `data`). -/
structure MatchEnv where
  flagged : Bool
  embeddingOutcome : Except String EmbApiResult
  byoOpenAIKey : Option String
  rpcOutcome : Except String (Option (List DbFileSection))
deriving Repr

/-- `getMatchingSections` (`lib/completions.ts`, lines 77–182): moderate
the sanitized query (throwing `ApiError 400 "Flagged content"` when
flagged), create the embedding with retries (wrapping any failure,
including a non-empty `error` field of the result, in an
`ApiError 400 "Error creating embedding …"`), record token usage unless a
caller key is used, then query the vector index (empty or null result ⇒
`ApiError 400 "No relevant sections found"`).  Returns the sections and
the prompt embedding, paired with the collaborator-call trace. -/
def getMatchingSections (env : MatchEnv) (sanitizedQuery verbatimPrompt : List Char) :
    Except ApiError (List DbFileSection × List Int) × List EngineCall :=
  let trace0 := [EngineCall.moderationCall sanitizedQuery]
  if env.flagged then
    (.error ⟨400, "Flagged content"⟩, trace0)
  else
    let trace1 := trace0 ++ [EngineCall.embeddingCall sanitizedQuery]
    match env.embeddingOutcome with
    | .error e =>
      (.error ⟨400, "Error creating embedding for prompt '" ++
        String.mk verbatimPrompt ++ "': " ++ e⟩, trace1)
    | .ok res =>
      match res.errorMsg with
      | some msg =>
        -- the `ApiError` thrown inside the `try` at line 114 is caught by
        -- the `catch` at line 126 and re-wrapped (its stringification is
        -- modelled as its message)
        (.error ⟨400, "Error creating embedding for prompt '" ++
          String.mk verbatimPrompt ++ "': " ++ msg⟩, trace1)
      | none =>
        let trace2 := trace1 ++
          (match env.byoOpenAIKey with
           | none => [EngineCall.recordTokenCall res.totalTokens]
           | some _ => [])
        match res.embedding with
        | none =>
          (.error ⟨400, "Error creating embedding for prompt '" ++
            String.mk verbatimPrompt ++ "'"⟩, trace2)
        | some emb =>
          let trace3 := trace2 ++ [EngineCall.matchSectionsCall]
          match env.rpcOutcome with
          | .error msg =>
            (.error ⟨400, "Error loading embeddings: " ++ msg⟩, trace3)
          | .ok none => (.error ⟨400, "No relevant sections found"⟩, trace3)
          | .ok (some []) => (.error ⟨400, "No relevant sections found"⟩, trace3)
          | .ok (some sections) => (.ok (sections, emb), trace3)

/-- Claim C5: if moderation flags the sanitized query, the engine fails
with `ApiError 400 "Flagged content"` and the collaborator-call trace
contains only the moderation call — no embedding call, hence no retrieval
and no token-usage recording. -/
theorem flagged_query_no_embedding (env : MatchEnv)
    (sanitizedQuery verbatimPrompt : List Char)
    (h : env.flagged = true) :
    getMatchingSections env sanitizedQuery verbatimPrompt =
      (.error ⟨400, "Flagged content"⟩,
        [EngineCall.moderationCall sanitizedQuery]) := by
  unfold getMatchingSections
  rw [h]
  simp

/-- Concrete instance of C5. -/
theorem flagged_query_no_embedding_witness :
    (MatchEnv.flagged ⟨true, .ok ⟨none, some [1], 7⟩, none,
        .ok (some [⟨"p", "c", 1⟩])⟩ = true) ∧
    getMatchingSections
        ⟨true, .ok ⟨none, some [1], 7⟩, none, .ok (some [⟨"p", "c", 1⟩])⟩
        "bad query".toList "bad query".toList =
      (.error ⟨400, "Flagged content"⟩,
        [EngineCall.moderationCall "bad query".toList]) :=
  ⟨rfl,
    flagged_query_no_embedding
      ⟨true, .ok ⟨none, some [1], 7⟩, none, .ok (some [⟨"p", "c", 1⟩])⟩
      "bad query".toList "bad query".toList rfl⟩

/-! ## The streaming delivery path: newline suppression
(`[project].ts`, lines 558–569)

Each parsed provider event yields a decoded text fragment (`getChunkText`;
a missing `delta.content` is the empty string after `TextEncoder` coercion).
The forwarding loop keeps a `counter` of enqueued fragments and skips a
fragment when `counter < 2 && (text?.match(/\n/) || []).length`, i.e. when
fewer than two fragments have been forwarded so far and the fragment
contains a newline character anywhere. -/

/-- `(text?.match(/\n/) || []).length` as a Boolean: does the fragment
contain a newline? -/
def containsNewline (t : String) : Bool := t.toList.contains '\n'

/-- The body fragments the streaming path forwards (enqueues after the
header), starting from the given `counter` value (`[project].ts`, lines
563–569): a fragment containing a newline is dropped while `counter < 2`;
every forwarded fragment increments `counter`. -/
def forwardFragments (counter : Nat) : List String → List String
  | [] => []
  | t :: ts =>
    if counter < 2 && containsNewline t then forwardFragments counter ts
    else t :: forwardFragments (counter + 1) ts

/-- Counterexample to claim C8 as stated: the very first decoded fragment
`"Hello\nworld"` does not consist solely of newline characters, yet the
streaming path suppresses it (it contains a newline and fewer than two
fragments have been forwarded). -/
theorem mixed_first_fragment_is_suppressed :
    forwardFragments 0 ["Hello\nworld", "Hi"] = ["Hi"] := by
  decide

/-- Specification-side description of the suppression window (for the
amended C8): with `n` forwards left before the window closes, the output
is the newline-free fragments up to and including the `n`-th newline-free
one, followed by all remaining fragments verbatim; when fewer than `n`
newline-free fragments exist, only the newline-free fragments are ever
forwarded. -/
def forwardedSpec : Nat → List String → List String
  | 0, ts => ts
  | n + 1, ts =>
    match ts.findIdx? (fun t => !containsNewline t) with
    | none => ts.filter (fun t => !containsNewline t)
    | some i =>
      (ts.take (i + 1)).filter (fun t => !containsNewline t) ++
        forwardedSpec n (ts.drop (i + 1))

theorem forwardedSpec_cons_newline {t : String} (h : containsNewline t = true) :
    ∀ (m : Nat) (ts : List String),
      forwardedSpec (m + 1) (t :: ts) = forwardedSpec (m + 1) ts := by
  intro m ts
  simp only [forwardedSpec, List.findIdx?_cons, h, Bool.not_true,
    Bool.false_eq_true, if_false, List.findIdx?_succ]
  rcases hidx : ts.findIdx? (fun t => !containsNewline t) with _ | i
  · simp [hidx, List.filter_cons, h]
  · simp only [hidx, Option.map_some']
    rw [show i + 1 + 1 = i + 2 from rfl]
    simp [List.filter_cons, h, List.take_succ_cons, List.drop_succ_cons]

theorem forwardFragments_cons (c : Nat) (t : String) (ts : List String) :
    forwardFragments c (t :: ts) =
      if c < 2 && containsNewline t then forwardFragments c ts
      else t :: forwardFragments (c + 1) ts := rfl

theorem forwardFragments_eq_forwardedSpec :
    ∀ (ts : List String) (c : Nat),
      forwardFragments c ts = forwardedSpec (2 - c) ts := by
  intro ts
  induction ts with
  | nil =>
    intro c
    rcases h : 2 - c with _ | m <;> simp [forwardFragments, forwardedSpec]
  | cons t ts ih =>
    intro c
    rw [forwardFragments_cons]
    by_cases hc : c < 2
    · obtain ⟨m, hm⟩ : ∃ m, 2 - c = m + 1 := ⟨1 - c, by omega⟩
      have hm' : 2 - (c + 1) = m := by omega
      rcases hnl : containsNewline t with _ | _
      · -- newline-free: forwarded, window shrinks
        rw [if_neg (by simp [hnl])]
        rw [ih (c + 1), hm', hm]
        simp only [forwardedSpec, List.findIdx?_cons, hnl, Bool.not_false,
          if_true]
        simp [List.filter_cons, hnl]
      · -- contains a newline: suppressed inside the window
        rw [if_pos (by simp [hnl, hc])]
        rw [ih c, hm, forwardedSpec_cons_newline hnl]
    · have h0 : 2 - c = 0 := by omega
      have h1 : 2 - (c + 1) = 0 := by omega
      rw [if_neg (by simp [hc])]
      rw [ih (c + 1), h0, h1]
      rfl

/-- Claim C8, amended: in the streaming delivery path the suppression
window is "until two fragments have been forwarded", not "the first two
fragments", and within it exactly the fragments *containing* a newline
character (not only those consisting solely of newlines) are suppressed;
afterwards every fragment is forwarded unchanged.  Equivalently, the
forwarded output is the newline-free fragments up to and including the
second one, followed by all remaining fragments verbatim. -/
theorem streaming_newline_suppression_window (ts : List String) :
    forwardFragments 0 ts = forwardedSpec 2 ts :=
  forwardFragments_eq_forwardedSpec ts 0

/-! ## Query-record persistence (`lib/completions.ts`, lines 23–75) -/

/-- The insights tiers relevant to persistence gating. -/
inductive InsightsType where
  | basic
  | advanced
deriving DecidableEq, Repr

/-- A caller-visible reference built by
`buildSectionReferenceFromMatchResult` (external util); only the path is
inspected by the endpoint (`references.map((r) => r.file.path)`). -/
structure Reference where
  path : String
deriving DecidableEq, Repr

/-- The `query_stats` row built by `storePrompt`: JS spreads omit falsy
`prompt`/`response` (empty strings) and undefined fields; `no_response`
is the truthiness of the reason; `meta` carries references (when
non-empty) and the reason; `processed_state` is `unprocessed` when
redaction is requested. -/
structure QueryRecord where
  prompt : Option (List Char)
  response : Option String
  embedding : Option (List Int)
  noResponse : Option Bool
  metaReferences : Option (List Reference)
  metaReason : Option Reason
  processedState : Option String
deriving DecidableEq, Repr

/-- `storePrompt` (`lib/completions.ts`, lines 23–58). -/
def storePrompt (prompt : Option (List Char)) (response : Option String)
    (embedding : Option (List Int)) (noResponseReason : Option Reason)
    (references : Option (List Reference)) (redact : Bool) : QueryRecord :=
  { prompt := match prompt with
      | some p => if p = [] then none else some p
      | none => none
    response := match response with
      | some r => if r = "" then none else some r
      | none => none
    embedding := embedding
    noResponse := match noResponseReason with
      | some _ => some true
      | none => none
    metaReferences := match references with
      | some rs => if rs.length > 0 then some rs else none
      | none => none
    metaReason := noResponseReason
    processedState := if redact then some "unprocessed" else none }

/-- `updatePrompt` (`lib/completions.ts`, lines 60–75), as the update row
`(id, response, reason)` it issues (falsy response omitted). -/
def updatePrompt (promptId : Nat) (response : Option String)
    (noResponseReason : Option Reason) : Nat × Option String × Option Reason :=
  (promptId,
    (match response with
      | some r => if r = "" then none else some r
      | none => none),
    noResponseReason)

/-- `_storePrompt` (`[project].ts`, lines 114–155): with `excludeData`
only the reason is stored; otherwise the prompt is always stored, the
response and references with any insights tier, and the embedding only
with the `advanced` tier. -/
def storePromptGated (prompt : List Char) (responseText : Option String)
    (promptEmbedding : Option (List Int)) (errorReason : Option Reason)
    (references : List Reference) (insightsType : Option InsightsType)
    (excludeData redact : Bool) : QueryRecord :=
  if excludeData then
    storePrompt none none none errorReason none redact
  else
    storePrompt (some prompt)
      (match insightsType with | some _ => responseText | none => none)
      (if insightsType = some InsightsType.advanced then promptEmbedding
       else none)
      errorReason (some references) redact

/-! ## The completions endpoint (`[project].ts`, `handler`, lines 229–632) -/

/-- The JavaScript whitespace characters relevant to `String.trim` here. -/
def jsWhitespace (c : Char) : Bool :=
  c == ' ' || c == '\n' || c == '\t' || c == '\r'

/-- JS `String.prototype.trim` on character lists. -/
def jsTrim (s : List Char) : List Char :=
  ((s.dropWhile jsWhitespace).reverse.dropWhile jsWhitespace).reverse

/-- `prompt.trim().replaceAll('\n', ' ')` (`[project].ts`, line 323). -/
def sanitizeQuery (s : List Char) : List Char :=
  (jsTrim s).map (fun c => if c = '\n' then ' ' else c)

/-- `isIDontKnowResponse` (`[project].ts`, lines 55–60):
`!responseText || responseText.endsWith(iDontKnowMessage)`. -/
def isIDontKnowResponse (responseText iDontKnowMessage : String) : Bool :=
  responseText == "" || iDontKnowMessage.toList.isSuffixOf responseText.toList

/-- JS `haystack.includes(needle)` on strings, via `splitFirst`. -/
def containsStr (needle haystack : String) : Bool :=
  (splitFirst needle.toList haystack.toList).isSome

/-- JS `s.replace(needle, repl)` (first occurrence only) on strings. -/
def replaceFirstStr (needle repl s : String) : String :=
  match splitFirst needle.toList s.toList with
  | none => s
  | some (p, q) => String.mk (p ++ repl.toList ++ q)

/-- `buildFullPrompt` (`[project].ts`, lines 157–190).  `stripIndentF`
models the external `stripIndent` of `common-tags`; `idkDefault` models
the `I_DONT_KNOW` constant of `lib/constants` (outside the sources).
Note that both placeholder tests query the *original* template while the
replacements run on the accumulator, exactly as in the source. -/
def buildFullPrompt (stripIndentF : String → String) (idkDefault : String)
    (template context promptText iDontKnowMessage : String)
    (contextKeyword promptKeyword idkKeyword : String)
    (doNotInjectContext doNotInjectPrompt : Bool) : String :=
  let t1 := replaceFirstStr idkKeyword
    (if iDontKnowMessage = "" then idkDefault else iDontKnowMessage) template
  let t2 :=
    if containsStr contextKeyword template then
      replaceFirstStr contextKeyword context t1
    else if doNotInjectContext then t1
    else "Here is some context which might contain valuable information to answer the question. It is in the form of sections preceded by a section id:\n\n---\n\n"
      ++ context ++ "\n\n---\n\n" ++ t1
  let t3 :=
    if containsStr promptKeyword template then
      replaceFirstStr promptKeyword promptText t2
    else if doNotInjectPrompt then t2
    else t2 ++ "\n\nPrompt: " ++ promptText ++ "\n"
  stripIndentF t3

/-- `_prepareSectionText` (`[project].ts`, lines 377–379):
`text.replace(/\n/g, ' ').trim()`. -/
def prepareSectionText (t : String) : String :=
  String.mk (jsTrim (t.toList.map (fun c => if c = '\n' then ' ' else c)))

/-- The context-assembly loop (`[project].ts`, lines 381–404): token
counts are summed first, and the loop breaks — excluding the current
section — once the running sum reaches the cutoff. -/
def includedSections (cutoff : Nat) : Nat → List DbFileSection → List DbFileSection
  | _, [] => []
  | acc, s :: rest =>
    let numTokens := acc + s.tokenCount
    if cutoff ≤ numTokens then []
    else s :: includedSections cutoff numTokens rest

/-- The `contextText` accumulated over the included sections. -/
def contextOf (sections : List DbFileSection) : String :=
  String.join (sections.map (fun s =>
    "Section id: " ++ s.path ++ "\n\n" ++ prepareSectionText s.content
      ++ "\n---\n"))

/-- `JSON.stringify` of the reference-path list (paths are assumed
escape-free), as emitted in the stream header (`[project].ts`, line
553). -/
def encodeJsonStringArray (xs : List String) : String :=
  "[" ++ String.intercalate "," (xs.map (fun s => "\"" ++ s ++ "\"")) ++ "]"

/-- JS truthiness of the optional prompt id (`if (promptId)`, line 600):
`0`, like `undefined`, is falsy. -/
def jsTruthyId : Option Nat → Bool
  | none => false
  | some n => n != 0

/-- The model provider's response, as the endpoint observes it:
`ok`/`errorBody` for the status check, `successText`/`totalTokens` for the
non-streaming JSON body, and `eventTexts` for the decoded per-event chunk
texts of a streamed body (a missing `delta.content` is the empty
string). -/
structure ProviderEnv where
  ok : Bool
  errorBody : String
  successText : String
  totalTokens : Nat
  eventTexts : List String
deriving DecidableEq, Repr

/-- The request parameters the endpoint reads. -/
structure CompletionsRequest where
  rawPrompt : List Char
  iDontKnowMessage : Option String
  stream : Bool
  excludeFromInsights : Bool
  redact : Bool
  promptTemplate : Option String
  contextTag : Option String
  promptTag : Option String
  idkTag : Option String
  doNotInjectContext : Bool
  doNotInjectPrompt : Bool
deriving Repr

/-- The full environment of one `handler` invocation: the request, the
constants living in `lib/constants` (outside the sources), the resolved
insights tier, the collaborator outcomes, the external reference builder
and the id the insert returns. -/
structure CompletionsEnv where
  request : CompletionsRequest
  maxPromptLength : Nat
  contextTokensCutoff : Nat
  idkDefault : String
  defaultPromptTemplate : String
  stripIndentF : String → String
  insightsType : Option InsightsType
  matchEnv : MatchEnv
  provider : ProviderEnv
  buildRef : DbFileSection → Reference
  dbId : Option Nat

/-- The endpoint's response, as the caller observes it. -/
inductive CompletionsResponse where
  | plain (status : Nat) (body : String)
  | withHeader (status : Nat) (body : String)
      (headerReferences : List Reference) (headerPromptId : Option Nat)
  | json (status : Nat) (text : String) (references : List Reference)
      (responseId : Option Nat)
  | streamed (headerReferences : List Reference)
      (headerPromptId : Option Nat) (bodyChunks : List String)
deriving DecidableEq, Repr

/-- Everything observable about one `handler` invocation: the response,
the `query_stats` rows inserted and updated, and the collaborator-call
trace. -/
structure HandlerOutcome where
  response : CompletionsResponse
  inserted : List QueryRecord
  updated : List (Nat × Option String × Option Reason)
  engineTrace : List EngineCall
deriving Repr

/-- `prompt = (params.prompt as string)?.substring(0, MAX_PROMPT_LENGTH)`
(`[project].ts`, line 242). -/
def truncatedPrompt (env : CompletionsEnv) : List Char :=
  env.request.rawPrompt.take env.maxPromptLength

/-- The completions `handler` (`[project].ts`, lines 229–632), after the
method/project/rate-limit/insights plumbing: truncate the prompt, reject
an empty prompt, sanitize, run `getMatchingSections` (its failure stores a
`no_sections` record and returns the error with an empty-references
header), assemble context/references/full prompt, then branch on
`stream`.  Non-streaming checks `res.ok` (storing `api_error` on failure
and the classified response on success); the streaming path never checks
`res.ok`: it stores a placeholder record, emits the header block followed
by the forwarded fragments (no header when no event arrives), and finally
updates the placeholder with the accumulated text and its
classification. -/
def handler (env : CompletionsEnv) : HandlerOutcome :=
  let prompt := truncatedPrompt env
  if prompt = [] then
    ⟨.plain 400 "No prompt provided", [], [], []⟩
  else
    let iDontKnowMessage :=
      match env.request.iDontKnowMessage with
      | some s => if s = "" then env.idkDefault else s
      | none => env.idkDefault
    let sanitizedQuery := sanitizeQuery prompt
    match getMatchingSections env.matchEnv sanitizedQuery prompt with
    | (.error e, trace) =>
      let record := storePromptGated prompt none none (some .no_sections) []
        env.insightsType env.request.excludeFromInsights env.request.redact
      ⟨.withHeader e.code e.message [] env.dbId, [record], [], trace⟩
    | (.ok (fileSections, promptEmbedding), trace) =>
      let included := includedSections env.contextTokensCutoff 0 fileSections
      let references := included.map env.buildRef
      let referencePaths := references.map Reference.path
      let fullPrompt := buildFullPrompt env.stripIndentF env.idkDefault
        (env.request.promptTemplate.getD env.defaultPromptTemplate)
        (contextOf included) (String.mk sanitizedQuery) iDontKnowMessage
        (env.request.contextTag.getD "{{CONTEXT}}")
        (env.request.promptTag.getD "{{PROMPT}}")
        (env.request.idkTag.getD "{{I_DONT_KNOW}}")
        env.request.doNotInjectContext env.request.doNotInjectPrompt
      if !env.request.stream then
        if !env.provider.ok then
          let record := storePromptGated prompt none (some promptEmbedding)
            (some .api_error) references env.insightsType
            env.request.excludeFromInsights env.request.redact
          ⟨.withHeader 400
              ("Unable to retrieve completions response: " ++
                env.provider.errorBody)
              references env.dbId,
            [record], [], trace⟩
        else
          let text := env.provider.successText
          let idk := isIDontKnowResponse text iDontKnowMessage
          let record := storePromptGated prompt (some text)
            (some promptEmbedding) (if idk then some .idk else none)
            references env.insightsType env.request.excludeFromInsights
            env.request.redact
          ⟨.json 200 text references env.dbId, [record], [],
            trace ++ [.recordTokenCall env.provider.totalTokens]⟩
      else
        let placeholder := storePromptGated prompt (some "")
          (some promptEmbedding) none references env.insightsType
          env.request.excludeFromInsights env.request.redact
        let promptId := env.dbId
        let headerChunk := encodeJsonStringArray referencePaths ++
          STREAM_SEPARATOR
        let bodyChunks :=
          match env.provider.eventTexts with
          | [] => []
          | _ => headerChunk :: forwardFragments 0 env.provider.eventTexts
        let responseText := String.join env.provider.eventTexts
        let estimatedTokenCount :=
          (fullPrompt.length + responseText.length + 2) / 4
        let tokenTrace :=
          match env.matchEnv.byoOpenAIKey with
          | none => [EngineCall.recordTokenCall estimatedTokenCount]
          | some _ => []
        let updates :=
          if jsTruthyId promptId then
            [updatePrompt (promptId.getD 0) (some responseText)
              (if isIDontKnowResponse responseText iDontKnowMessage then
                some Reason.idk
               else none)]
          else []
        ⟨.streamed references promptId bodyChunks, [placeholder], updates,
          trace ++ tokenTrace⟩

theorem storePromptGated_reason (p : List Char) (r : Option String)
    (e : Option (List Int)) (refs : List Reference)
    (ins : Option InsightsType) (excl red : Bool) (reason : Reason) :
    (storePromptGated p r e (some reason) refs ins excl red).metaReason =
        some reason ∧
    (storePromptGated p r e (some reason) refs ins excl red).noResponse =
        some true := by
  unfold storePromptGated storePrompt
  split <;> exact ⟨rfl, rfl⟩

theorem storePromptGated_prompt (p : List Char) (r : Option String)
    (e : Option (List Int)) (reason : Option Reason) (refs : List Reference)
    (ins : Option InsightsType) (excl red : Bool) :
    (storePromptGated p r e reason refs ins excl red).prompt = none ∨
    (storePromptGated p r e reason refs ins excl red).prompt = some p := by
  unfold storePromptGated storePrompt
  split
  · exact Or.inl rfl
  · dsimp only
    split
    · exact Or.inl rfl
    · exact Or.inr rfl

theorem getMatchingSections_no_sections (menv : MatchEnv) (q v : List Char)
    (embRes : EmbApiResult) (vec : List Int)
    (hflag : menv.flagged = false)
    (hemb : menv.embeddingOutcome = .ok embRes)
    (hembErr : embRes.errorMsg = none)
    (hembVec : embRes.embedding = some vec)
    (hrpc : menv.rpcOutcome = .ok none ∨ menv.rpcOutcome = .ok (some [])) :
    (getMatchingSections menv q v).1 =
      .error ⟨400, "No relevant sections found"⟩ := by
  rcases hrpc with h | h <;>
    simp [getMatchingSections, hflag, hemb, hembErr, hembVec, h]

/-- Claim C6: when retrieval yields no sections (a null or empty RPC
result), the engine fails with `ApiError 400 "No relevant sections found"`
(returned with an empty-references header) and the single query record
persisted for the query carries reason `no_sections`. -/
theorem no_sections_error_and_record (env : CompletionsEnv)
    (embRes : EmbApiResult) (vec : List Int)
    (hprompt : truncatedPrompt env ≠ [])
    (hflag : env.matchEnv.flagged = false)
    (hemb : env.matchEnv.embeddingOutcome = .ok embRes)
    (hembErr : embRes.errorMsg = none)
    (hembVec : embRes.embedding = some vec)
    (hrpc : env.matchEnv.rpcOutcome = .ok none ∨
      env.matchEnv.rpcOutcome = .ok (some [])) :
    (handler env).response =
      .withHeader 400 "No relevant sections found" [] env.dbId ∧
    ∃ r, (handler env).inserted = [r] ∧
      r.metaReason = some .no_sections ∧ r.noResponse = some true := by
  have h1 := getMatchingSections_no_sections env.matchEnv
    (sanitizeQuery (truncatedPrompt env)) (truncatedPrompt env)
    embRes vec hflag hemb hembErr hembVec hrpc
  rcases hg : getMatchingSections env.matchEnv
      (sanitizeQuery (truncatedPrompt env)) (truncatedPrompt env) with ⟨res, tr⟩
  rw [hg] at h1
  simp only at h1
  subst h1
  constructor
  · simp [handler, if_neg hprompt, hg]
  · refine ⟨storePromptGated (truncatedPrompt env) none none
      (some .no_sections) [] env.insightsType
      env.request.excludeFromInsights env.request.redact, ?_,
      (storePromptGated_reason _ _ _ _ _ _ _ _).left,
      (storePromptGated_reason _ _ _ _ _ _ _ _).right⟩
    simp [handler, if_neg hprompt, hg]

/-- The C6 witness environment: the scenario prompt `"What is X?"` with an
empty retrieval result. -/
def noSectionsEnv : CompletionsEnv where
  request := { rawPrompt := "What is X?".toList, iDontKnowMessage := none,
               stream := false, excludeFromInsights := false,
               redact := false, promptTemplate := none, contextTag := none,
               promptTag := none, idkTag := none,
               doNotInjectContext := false, doNotInjectPrompt := false }
  maxPromptLength := 500
  contextTokensCutoff := 100
  idkDefault := "IDK"
  defaultPromptTemplate := "T"
  stripIndentF := fun s => s
  insightsType := some .advanced
  matchEnv := ⟨false, .ok ⟨none, some [1], 7⟩, none, .ok (some [])⟩
  provider := ⟨true, "", "ans", 5, []⟩
  buildRef := fun s => ⟨s.path⟩
  dbId := some 1

/-- Concrete instance of C6: an empty retrieval result for the scenario
prompt. -/
theorem no_sections_error_and_record_witness :
    (truncatedPrompt noSectionsEnv ≠ [] ∧
      noSectionsEnv.matchEnv.flagged = false ∧
      (noSectionsEnv.matchEnv.rpcOutcome = .ok none ∨
        noSectionsEnv.matchEnv.rpcOutcome = .ok (some []))) ∧
    ((handler noSectionsEnv).response =
      .withHeader 400 "No relevant sections found" [] (some 1) ∧
    ∃ r, (handler noSectionsEnv).inserted = [r] ∧
      r.metaReason = some .no_sections ∧ r.noResponse = some true) :=
  ⟨⟨by decide, rfl, Or.inr rfl⟩,
    no_sections_error_and_record noSectionsEnv ⟨none, some [1], 7⟩ [1]
      (by decide) rfl rfl rfl rfl (Or.inr rfl)⟩

theorem getMatchingSections_success (menv : MatchEnv) (q v : List Char)
    (embRes : EmbApiResult) (vec : List Int)
    (s : DbFileSection) (rest : List DbFileSection)
    (hflag : menv.flagged = false)
    (hemb : menv.embeddingOutcome = .ok embRes)
    (hembErr : embRes.errorMsg = none)
    (hembVec : embRes.embedding = some vec)
    (hrpc : menv.rpcOutcome = .ok (some (s :: rest))) :
    (getMatchingSections menv q v).1 = .ok (s :: rest, vec) := by
  simp [getMatchingSections, hflag, hemb, hembErr, hembVec, hrpc]

/-- The failing input for claim C7: a streaming request for which the
model provider answers with a non-2xx status (and hence no stream
events). -/
def streamingProviderErrorEnv : CompletionsEnv where
  request := { rawPrompt := "What is X?".toList, iDontKnowMessage := none,
               stream := true, excludeFromInsights := false,
               redact := false, promptTemplate := none, contextTag := none,
               promptTag := none, idkTag := none,
               doNotInjectContext := false, doNotInjectPrompt := false }
  maxPromptLength := 500
  contextTokensCutoff := 100
  idkDefault := "IDK"
  defaultPromptTemplate := "T"
  stripIndentF := fun s => s
  insightsType := some .advanced
  matchEnv := ⟨false, .ok ⟨none, some [1], 7⟩, none,
    .ok (some [⟨"p", "c", 3⟩])⟩
  provider := ⟨false, "Rate limit exceeded", "", 0, []⟩
  buildRef := fun s => ⟨s.path⟩
  dbId := some 1

/-- Counterexample to claim C7 as stated: for a *streaming* query the
endpoint never checks the provider's status (`res.ok` is only tested
inside `if (!stream)`, `[project].ts` line 450): on
`streamingProviderErrorEnv` it returns the 200 streaming response, the
only record inserted is the placeholder with no reason, and the final
update classifies the empty accumulated text as `idk` — no record ever
carries reason `api_error`, and no 400-class response is returned. -/
theorem streaming_provider_error_not_short_circuited :
    (handler streamingProviderErrorEnv).response =
      .streamed [⟨"p"⟩] (some 1) [] ∧
    ((handler streamingProviderErrorEnv).inserted.map QueryRecord.metaReason)
      = [none] ∧
    ((handler streamingProviderErrorEnv).updated.map
        (fun u => u.2.2)) = [some Reason.idk] := by
  decide

/-- Claim C7, amended: for every *non-streaming* query for which the model
provider responds with a non-2xx status, the endpoint short-circuits:
it persists the query record with reason `api_error` and returns a
400-class error response carrying the references/promptId header.
Streaming queries do not check the provider status at all
(`streaming_provider_error_not_short_circuited`). -/
theorem provider_error_short_circuits_non_streaming (env : CompletionsEnv)
    (embRes : EmbApiResult) (vec : List Int)
    (s : DbFileSection) (rest : List DbFileSection)
    (hprompt : truncatedPrompt env ≠ [])
    (hstream : env.request.stream = false)
    (hok : env.provider.ok = false)
    (hflag : env.matchEnv.flagged = false)
    (hemb : env.matchEnv.embeddingOutcome = .ok embRes)
    (hembErr : embRes.errorMsg = none)
    (hembVec : embRes.embedding = some vec)
    (hrpc : env.matchEnv.rpcOutcome = .ok (some (s :: rest))) :
    (handler env).response =
      .withHeader 400
        ("Unable to retrieve completions response: " ++ env.provider.errorBody)
        ((includedSections env.contextTokensCutoff 0 (s :: rest)).map
          env.buildRef)
        env.dbId ∧
    ∃ r, (handler env).inserted = [r] ∧
      r.metaReason = some .api_error ∧ r.noResponse = some true := by
  have h1 := getMatchingSections_success env.matchEnv
    (sanitizeQuery (truncatedPrompt env)) (truncatedPrompt env)
    embRes vec s rest hflag hemb hembErr hembVec hrpc
  rcases hg : getMatchingSections env.matchEnv
      (sanitizeQuery (truncatedPrompt env)) (truncatedPrompt env) with ⟨res, tr⟩
  rw [hg] at h1
  simp only at h1
  subst h1
  constructor
  · simp [handler, if_neg hprompt, hg, hstream, hok]
  · refine ⟨storePromptGated (truncatedPrompt env) none (some vec)
      (some .api_error)
      ((includedSections env.contextTokensCutoff 0 (s :: rest)).map
        env.buildRef)
      env.insightsType env.request.excludeFromInsights env.request.redact,
      ?_,
      (storePromptGated_reason _ _ _ _ _ _ _ _).left,
      (storePromptGated_reason _ _ _ _ _ _ _ _).right⟩
    simp [handler, if_neg hprompt, hg, hstream, hok]

/-- The witness environment for the amended C7: the same provider failure
with `stream = false`. -/
def nonStreamingProviderErrorEnv : CompletionsEnv where
  request := { rawPrompt := "What is X?".toList, iDontKnowMessage := none,
               stream := false, excludeFromInsights := false,
               redact := false, promptTemplate := none, contextTag := none,
               promptTag := none, idkTag := none,
               doNotInjectContext := false, doNotInjectPrompt := false }
  maxPromptLength := 500
  contextTokensCutoff := 100
  idkDefault := "IDK"
  defaultPromptTemplate := "T"
  stripIndentF := fun s => s
  insightsType := some .advanced
  matchEnv := ⟨false, .ok ⟨none, some [1], 7⟩, none,
    .ok (some [⟨"p", "c", 3⟩])⟩
  provider := ⟨false, "Rate limit exceeded", "", 0, []⟩
  buildRef := fun s => ⟨s.path⟩
  dbId := some 1

/-- Concrete instance of the amended C7. -/
theorem provider_error_short_circuits_witness :
    (truncatedPrompt nonStreamingProviderErrorEnv ≠ [] ∧
      nonStreamingProviderErrorEnv.request.stream = false ∧
      nonStreamingProviderErrorEnv.provider.ok = false) ∧
    ((handler nonStreamingProviderErrorEnv).response =
      .withHeader 400
        ("Unable to retrieve completions response: " ++
          nonStreamingProviderErrorEnv.provider.errorBody)
        ((includedSections nonStreamingProviderErrorEnv.contextTokensCutoff 0
          [⟨"p", "c", 3⟩]).map nonStreamingProviderErrorEnv.buildRef)
        nonStreamingProviderErrorEnv.dbId ∧
    ∃ r, (handler nonStreamingProviderErrorEnv).inserted = [r] ∧
      r.metaReason = some .api_error ∧ r.noResponse = some true) :=
  ⟨⟨by decide, rfl, rfl⟩,
    provider_error_short_circuits_non_streaming nonStreamingProviderErrorEnv
      ⟨none, some [1], 7⟩ [1] ⟨"p", "c", 3⟩ []
      (by decide) rfl rfl rfl rfl rfl rfl rfl⟩

theorem getMatchingSections_call_inputs (menv : MatchEnv) (q v : List Char)
    (x : List Char) :
    (EngineCall.moderationCall x ∈ (getMatchingSections menv q v).2 → x = q) ∧
    (EngineCall.embeddingCall x ∈ (getMatchingSections menv q v).2 → x = q) := by
  unfold getMatchingSections
  cases hf : menv.flagged
  · rcases he : menv.embeddingOutcome with e | res
    · simp
    · dsimp only
      rcases hre : res.errorMsg with _ | m
      · dsimp only
        rcases hbe : res.embedding with _ | emb
        · cases hb : menv.byoOpenAIKey <;> simp
        · rcases hr : menv.rpcOutcome with msg | osecs
          · cases hb : menv.byoOpenAIKey <;> simp
          · rcases osecs with _ | (_ | ⟨sec, secs⟩) <;>
              cases hb : menv.byoOpenAIKey <;> simp
      · simp
  · simp

theorem handler_trace_calls (env : CompletionsEnv) :
    ∀ c ∈ (handler env).engineTrace,
      c ∈ (getMatchingSections env.matchEnv
          (sanitizeQuery (truncatedPrompt env)) (truncatedPrompt env)).2 ∨
      (∃ n, c = .recordTokenCall n) := by
  intro c hc
  by_cases hp : truncatedPrompt env = []
  · simp [handler, hp] at hc
  · rcases hg : getMatchingSections env.matchEnv
        (sanitizeQuery (truncatedPrompt env)) (truncatedPrompt env) with
      ⟨res, tr⟩
    simp only [handler, if_neg hp, hg] at hc
    rcases res with e | ⟨secs, emb⟩
    · try dsimp only at hc
      exact Or.inl hc
    · try dsimp only at hc
      cases hs : env.request.stream
      · rw [hs] at hc
        simp only [Bool.not_false, if_true] at hc
        cases ho : env.provider.ok
        · rw [ho] at hc
          simp only [Bool.not_false, if_true] at hc
          try dsimp only at hc
          exact Or.inl hc
        · rw [ho] at hc
          simp only [Bool.not_true, Bool.false_eq_true, if_false] at hc
          try dsimp only at hc
          rcases List.mem_append.mp hc with h | h
          · exact Or.inl h
          · exact Or.inr ⟨_, by simpa using h⟩
      · rw [hs] at hc
        simp only [Bool.not_true, Bool.false_eq_true, if_false] at hc
        try dsimp only at hc
        rcases List.mem_append.mp hc with h | h
        · exact Or.inl h
        · rcases hb : env.matchEnv.byoOpenAIKey with _ | k
          · rw [hb] at h
            try dsimp only at h
            exact Or.inr ⟨_, by simpa using h⟩
          · rw [hb] at h
            simp at h

theorem handler_inserted_prompt (env : CompletionsEnv) :
    ∀ r ∈ (handler env).inserted,
      r.prompt = none ∨ r.prompt = some (truncatedPrompt env) := by
  intro r hr
  by_cases hp : truncatedPrompt env = []
  · simp [handler, hp] at hr
  · rcases hg : getMatchingSections env.matchEnv
        (sanitizeQuery (truncatedPrompt env)) (truncatedPrompt env) with
      ⟨res, tr⟩
    simp only [handler, if_neg hp, hg] at hr
    rcases res with e | ⟨secs, emb⟩
    · try dsimp only at hr
      rw [List.mem_singleton] at hr
      subst hr
      exact storePromptGated_prompt _ _ _ _ _ _ _ _
    · try dsimp only at hr
      cases hs : env.request.stream
      · rw [hs] at hr
        simp only [Bool.not_false, if_true] at hr
        cases ho : env.provider.ok
        · rw [ho] at hr
          simp only [Bool.not_false, if_true] at hr
          try dsimp only at hr
          rw [List.mem_singleton] at hr
          subst hr
          exact storePromptGated_prompt _ _ _ _ _ _ _ _
        · rw [ho] at hr
          simp only [Bool.not_true, Bool.false_eq_true, if_false] at hr
          try dsimp only at hr
          rw [List.mem_singleton] at hr
          subst hr
          exact storePromptGated_prompt _ _ _ _ _ _ _ _
      · rw [hs] at hr
        simp only [Bool.not_true, Bool.false_eq_true, if_false] at hr
        try dsimp only at hr
        rw [List.mem_singleton] at hr
        subst hr
        exact storePromptGated_prompt _ _ _ _ _ _ _ _

/-- Claim C10 (implicit): the endpoint truncates the supplied prompt to at
most `MAX_PROMPT_LENGTH` characters up front (`[project].ts`, line 242),
so every downstream stage sees only the truncated text: the moderation and
embedding collaborators are always called with the sanitized *truncated*
prompt, every persisted query record stores either no prompt or exactly
the truncated prompt, and the truncated prompt never exceeds
`MAX_PROMPT_LENGTH` characters. -/
theorem prompt_truncated_before_all_stages (env : CompletionsEnv) :
    (∀ x, EngineCall.moderationCall x ∈ (handler env).engineTrace →
      x = sanitizeQuery (truncatedPrompt env)) ∧
    (∀ x, EngineCall.embeddingCall x ∈ (handler env).engineTrace →
      x = sanitizeQuery (truncatedPrompt env)) ∧
    (∀ r ∈ (handler env).inserted,
      r.prompt = none ∨ r.prompt = some (truncatedPrompt env)) ∧
    (truncatedPrompt env).length ≤ env.maxPromptLength := by
  refine ⟨?_, ?_, handler_inserted_prompt env, ?_⟩
  · intro x hx
    rcases handler_trace_calls env _ hx with h | ⟨n, hn⟩
    · exact (getMatchingSections_call_inputs env.matchEnv _ _ x).left h
    · simp at hn
  · intro x hx
    rcases handler_trace_calls env _ hx with h | ⟨n, hn⟩
    · exact (getMatchingSections_call_inputs env.matchEnv _ _ x).right h
    · simp at hn
  · exact List.length_take_le env.maxPromptLength env.request.rawPrompt
